import Mathlib

/-!
Verification model of the crebAI task service core.

Shallow embedding of:
- `app/services/task_manager.py` (TaskManager: create_task, update_task_status,
  get_task_status, list_tasks, clean_old_tasks);
- `app/services/task_scheduler.py` (TaskScheduler: the per-task body of
  _task_worker, _process_text_generation, _process_chat_completion,
  stream_chat_completion);
- `app/llm/models/mlx_model.py` (chat_stream);
- `app/api/endpoints/chat_completion.py` (stream_response).

Timestamps (`time.time()`) are modelled as integers supplied by the caller.
Python dicts keyed by task id are modelled as insertion-ordered association
lists (Python dicts iterate in insertion order, which matters for the stable
sort in list_tasks). The caller-supplied `params` dict is shared mutable
state in Python; it is modelled as an address into a heap `Addr → Params`,
so aliasing between the caller's dict and the stored record stays visible.
Raised exceptions (KeyError and backend errors) are modelled as
`Except String`.
-/

namespace CrebAI

abbrev Addr := Nat
abbrev Params := List (String × String)
abbrev Heap := Addr → Params

/-- Result values stored in `TaskManager.results`: either an opaque backend
success value or a dict payload (string-keyed association list), as built by
the scheduler for error results. -/
inductive ResultVal
  | text (s : String)
  | payload (fields : List (String × String))
deriving DecidableEq

/-- One task record, mirroring the dict built by `TaskManager.create_task`
(task_manager.py lines 35-41), plus the `completed_at` key that
`update_task_status` may add later. `paramsRef` is the heap address of the
caller's params dict (stored by reference in the Python code). -/
structure TaskRecord where
  id : String
  type : String
  paramsRef : Addr
  status : String
  created_at : Int
  completed_at : Option Int
deriving DecidableEq

/-- The TaskManager state: `self.tasks` and `self.results`
(task_manager.py lines 16-19). -/
structure Store where
  tasks : List (String × TaskRecord)
  results : List (String × ResultVal)
deriving DecidableEq

def emptyStore : Store := { tasks := [], results := [] }

def lookupTask (s : Store) (task_id : String) : Option TaskRecord :=
  (s.tasks.find? (fun p => p.1 == task_id)).map (·.2)

def lookupResult (s : Store) (task_id : String) : Option ResultVal :=
  (s.results.find? (fun p => p.1 == task_id)).map (·.2)

def statusOf (s : Store) (task_id : String) : Option String :=
  (lookupTask s task_id).map (·.status)

/-- `TaskManager.create_task` (task_manager.py lines 21-44): insert a fresh
record with status "pending" and `created_at = now`. The params argument is
stored as given — the Python code stores the caller's dict object itself,
without copying — modelled by storing the heap address unchanged. -/
def create_task (s : Store) (task_id : String) (task_type : String)
    (params : Addr) (now : Int) : Store :=
  { s with tasks := s.tasks ++
      [(task_id,
        { id := task_id, type := task_type, paramsRef := params,
          status := "pending", created_at := now, completed_at := none })] }

/-- Python dict assignment `self.results[task_id] = result`: replace in place
when the key exists, else append (insertion order). -/
def setTaskResult (results : List (String × ResultVal)) (task_id : String)
    (r : ResultVal) : List (String × ResultVal) :=
  if results.any (fun p => p.1 == task_id) then
    results.map (fun p => if p.1 == task_id then (p.1, r) else p)
  else results ++ [(task_id, r)]

/-- Field updates performed on the task dict by `update_task_status`
(task_manager.py lines 62-66): store the supplied status verbatim; stamp
`completed_at = now` exactly when a result is supplied. -/
def applyStatus (status : String) (result : Option ResultVal) (now : Int)
    (rec : TaskRecord) : TaskRecord :=
  { rec with
      status := status,
      completed_at := if result.isSome then some now else rec.completed_at }

/-- Effect of `TaskManager.update_task_status` on a store that contains the
task (task_manager.py lines 62-66). -/
def update_apply (s : Store) (task_id : String) (status : String)
    (result : Option ResultVal) (now : Int) : Store :=
  { tasks := s.tasks.map (fun p =>
      if p.1 == task_id then (p.1, applyStatus status result now p.2) else p),
    results := match result with
      | none => s.results
      | some r => setTaskResult s.results task_id r }

def notFoundMsg (task_id : String) : String := "Task " ++ task_id ++ " not found"

/-- `TaskManager.update_task_status` (task_manager.py lines 46-68): raise
KeyError when the id is unknown, otherwise apply the update. No transition
rule is checked. -/
def update_task_status (s : Store) (task_id : String) (status : String)
    (result : Option ResultVal) (now : Int) : Except String Store :=
  if (lookupTask s task_id).isSome then
    .ok (update_apply s task_id status result now)
  else .error (notFoundMsg task_id)

/-- The dict returned by `get_task_status`: a copy of the record, plus the
"result" key when attached. -/
structure TaskView where
  task : TaskRecord
  result : Option ResultVal
deriving DecidableEq

/-- `TaskManager.get_task_status` (task_manager.py lines 70-91): raise
KeyError when the id is unknown; return a copy of the record, attaching the
stored result only when the record's status is "completed" and a result is
present. -/
def get_task_status (s : Store) (task_id : String) : Except String TaskView :=
  match lookupTask s task_id with
  | none => .error (notFoundMsg task_id)
  | some rec =>
    .ok { task := rec,
          result := if rec.status == "completed" then lookupResult s task_id
                    else none }

/-- `TaskManager.list_tasks` (task_manager.py lines 93-117): optional status
filter (Python truthiness at `if status:` — both None and the empty string
skip the filter), stable sort by `created_at` newest first, then the slice
`[skip : skip + limit]`. Python `list.sort(key=..., reverse=True)` is the
stable descending sort; `List.insertionSort` with this relation is stable
(ties keep their original, i.e. insertion, order) and sorts descending, so
it is an exact model of it. -/
def list_tasks (s : Store) (status : Option String) (limit : Nat) (skip : Nat) :
    List TaskRecord :=
  let tasks := s.tasks.map (·.2)
  let tasks := match status with
    | some st => if st == "" then tasks
                 else tasks.filter (fun t => t.status == st)
    | none => tasks
  let sorted := tasks.insertionSort (fun a b => b.created_at ≤ a.created_at)
  (sorted.drop skip).take limit

/-- `settings.TASK_MAX_AGE_HOURS` default (core/config.py line 31). -/
def TASK_MAX_AGE_HOURS : Nat := 48

/-- Resolution of the `max_age_hours` argument (task_manager.py line 129):
`max_age_hours or settings.TASK_MAX_AGE_HOURS` — Python `or` falls back to
the default both when the argument is None and when it is 0 (falsy). -/
def resolveMaxAge (max_age_hours : Option Nat) : Nat :=
  match max_age_hours with
  | none => TASK_MAX_AGE_HOURS
  | some h => if h == 0 then TASK_MAX_AGE_HOURS else h

/-- `TaskManager.clean_old_tasks` (task_manager.py lines 119-148): remove
every task with `now - created_at > max_age_seconds` together with its
stored result; return the number removed. -/
def clean_old_tasks (s : Store) (max_age_hours : Option Nat) (now : Int) :
    Nat × Store :=
  let max_age_seconds : Int := (resolveMaxAge max_age_hours : Int) * 3600
  let to_remove :=
    (s.tasks.filter (fun p => decide (now - p.2.created_at > max_age_seconds))).map (·.1)
  let tasks := s.tasks.filter (fun p => ! decide (now - p.2.created_at > max_age_seconds))
  let results := s.results.filter (fun p => ! to_remove.contains p.1)
  (to_remove.length, { tasks := tasks, results := results })

def heapWrite (h : Heap) (a : Addr) (v : Params) : Heap :=
  fun x => if x = a then v else h x

def derefParams (h : Heap) (rec : TaskRecord) : Params := h rec.paramsRef

/-! Association-list lemmas used to reason about the store operations. -/

theorem keyfix_if {β : Type} (i : String) (u : String × β → β) :
    ∀ p : String × β, (if p.1 == i then (p.1, u p) else p).1 = p.1 := by
  intro p
  by_cases hp : (p.1 == i) = true <;> simp [hp]

theorem assoc_find?_map_keyfix {β : Type} (l : List (String × β))
    (f : String × β → String × β) (hk : ∀ p, (f p).1 = p.1) (j : String) :
    (l.map f).find? (fun p => p.1 == j) =
      (l.find? (fun p => p.1 == j)).map f := by
  induction l with
  | nil => rfl
  | cons hd tl ih =>
    rw [List.map_cons]
    by_cases h : hd.1 = j
    · have h1 : ((f hd).1 == j) = true := by simp [hk hd, h]
      have h2 : (hd.1 == j) = true := by simp [h]
      simp only [List.find?_cons, h1, h2]
      rfl
    · have h1 : ((f hd).1 == j) = false := by simp [hk hd, h]
      have h2 : (hd.1 == j) = false := by simp [h]
      simp only [List.find?_cons, h1, h2]
      exact ih

theorem assoc_find?_append {β : Type} (l : List (String × β)) (x : String × β)
    (q : String × β → Bool) :
    (l ++ [x]).find? q =
      match l.find? q with
      | some y => some y
      | none => if q x then some x else none := by
  induction l with
  | nil =>
    cases hq : q x <;> simp [List.find?, hq]
  | cons hd tl ih =>
    cases hqh : q hd with
    | true => simp [List.find?_cons, hqh]
    | false => simp [List.find?_cons, hqh, ih]

theorem lookupTask_create_self (s : Store) (i ty : String) (r : Addr) (now : Int)
    (h : lookupTask s i = none) :
    lookupTask (create_task s i ty r now) i =
      some { id := i, type := ty, paramsRef := r, status := "pending",
             created_at := now, completed_at := none } := by
  unfold lookupTask create_task at *
  rw [assoc_find?_append]
  cases hf : (s.tasks.find? (fun p => p.1 == i)) with
  | some y => rw [hf] at h; simp at h
  | none => simp

theorem lookupTask_create_ne (s : Store) (i j ty : String) (r : Addr) (now : Int)
    (hne : j ≠ i) :
    lookupTask (create_task s i ty r now) j = lookupTask s j := by
  unfold lookupTask create_task
  rw [assoc_find?_append]
  have h1 : (i == j) = false := beq_eq_false_iff_ne.mpr (fun hh => hne hh.symm)
  cases hf : (s.tasks.find? (fun p => p.1 == j)) with
  | some y => rfl
  | none => simp [h1]

theorem lookupTask_update_apply_self (s : Store) (i st : String)
    (res : Option ResultVal) (now : Int) (rec : TaskRecord)
    (h : lookupTask s i = some rec) :
    lookupTask (update_apply s i st res now) i =
      some (applyStatus st res now rec) := by
  unfold lookupTask update_apply at *
  rw [assoc_find?_map_keyfix _ _ (keyfix_if i (fun p => applyStatus st res now p.2)) i]
  cases hf : (s.tasks.find? (fun p => p.1 == i)) with
  | none => rw [hf] at h; simp at h
  | some y =>
    rw [hf] at h
    have hyi : y.1 = i := by simpa using List.find?_some hf
    have hrec : y.2 = rec := by simpa using h
    simp [hyi, hrec]

theorem lookupTask_update_apply_ne (s : Store) (i j st : String)
    (res : Option ResultVal) (now : Int) (hne : j ≠ i) :
    lookupTask (update_apply s i st res now) j = lookupTask s j := by
  unfold lookupTask update_apply
  rw [assoc_find?_map_keyfix _ _ (keyfix_if i (fun p => applyStatus st res now p.2)) j]
  cases hf : (s.tasks.find? (fun p => p.1 == j)) with
  | none => rfl
  | some y =>
    have hyj : y.1 = j := by simpa using List.find?_some hf
    have hne2 : y.1 ≠ i := by rw [hyj]; exact hne
    simp [hne2]

theorem statusOf_update_apply_self (s : Store) (i st : String)
    (res : Option ResultVal) (now : Int)
    (h : (lookupTask s i).isSome) :
    statusOf (update_apply s i st res now) i = some st := by
  cases hf : lookupTask s i with
  | none => rw [hf] at h; simp at h
  | some rec =>
    unfold statusOf
    rw [lookupTask_update_apply_self s i st res now rec hf]
    rfl

theorem assoc_find?_setTaskResult_self (l : List (String × ResultVal))
    (i : String) (r : ResultVal) :
    ((setTaskResult l i r).find? (fun p => p.1 == i)).map (·.2) = some r := by
  unfold setTaskResult
  cases hany : l.any (fun p => p.1 == i) with
  | true =>
    rw [if_pos rfl]
    rw [assoc_find?_map_keyfix _ _ (keyfix_if i (fun _ => r)) i]
    cases hf : (l.find? (fun p => p.1 == i)) with
    | none =>
      exfalso
      obtain ⟨x, hx, hqx⟩ := List.any_eq_true.mp hany
      exact (List.find?_eq_none.mp hf x hx) hqx
    | some y =>
      have hyi : y.1 = i := by simpa using List.find?_some hf
      simp [hyi]
  | false =>
    rw [if_neg (by simp)]
    rw [assoc_find?_append]
    have hf : l.find? (fun p => p.1 == i) = none :=
      List.find?_eq_none.mpr (List.any_eq_false.mp hany)
    rw [hf]
    simp

theorem assoc_find?_setTaskResult_ne (l : List (String × ResultVal))
    (i j : String) (r : ResultVal) (hne : j ≠ i) :
    (setTaskResult l i r).find? (fun p => p.1 == j) =
      l.find? (fun p => p.1 == j) := by
  unfold setTaskResult
  cases hany : l.any (fun p => p.1 == i) with
  | true =>
    rw [if_pos rfl]
    rw [assoc_find?_map_keyfix _ _ (keyfix_if i (fun _ => r)) j]
    cases hf : (l.find? (fun p => p.1 == j)) with
    | none => rfl
    | some y =>
      have hyj : y.1 = j := by simpa using List.find?_some hf
      have hne2 : y.1 ≠ i := by rw [hyj]; exact hne
      simp [hne2]
  | false =>
    rw [if_neg (by simp)]
    rw [assoc_find?_append]
    have h1 : ((i, r).1 == j) = false :=
      beq_eq_false_iff_ne.mpr (fun hh => hne hh.symm)
    cases hf : (l.find? (fun p => p.1 == j)) with
    | some y => rfl
    | none => simp [h1]

theorem lookupResult_update_apply_some (s : Store) (i st : String)
    (r : ResultVal) (now : Int) :
    lookupResult (update_apply s i st (some r) now) i = some r := by
  unfold lookupResult update_apply
  exact assoc_find?_setTaskResult_self s.results i r

theorem lookupResult_update_apply_ne (s : Store) (i j st : String)
    (res : Option ResultVal) (now : Int) (hne : j ≠ i) :
    lookupResult (update_apply s i st res now) j = lookupResult s j := by
  unfold lookupResult update_apply
  cases res with
  | none => rfl
  | some r => rw [assoc_find?_setTaskResult_ne s.results i j r hne]

/-! Claim C10: update_task_status enforces no transition rules. -/

/-- C10: the store's update_task_status enforces no transition rules: for
every store, every task id present in it, every status string whatsoever
(including moves out of terminal states, backward moves, and values outside
the four-state enumeration) and any optional result, the call succeeds and
the record's status afterwards equals the supplied value. The state machine
is maintained only by the discipline of the store's callers. -/
theorem c10_update_status_unchecked (s : Store) (i st : String)
    (res : Option ResultVal) (now : Int)
    (h : (lookupTask s i).isSome) :
    update_task_status s i st res now = .ok (update_apply s i st res now) ∧
    statusOf (update_apply s i st res now) i = some st := by
  constructor
  · unfold update_task_status
    rw [if_pos h]
  · exact statusOf_update_apply_self s i st res now h

def c10Store : Store :=
  update_apply (create_task emptyStore "t1" "text_generation" 0 0)
    "t1" "completed" (some (.text "done")) 5

/-- Witness for C10 at a concrete input: moving a completed task back to
"pending" (a backward move out of a terminal state) is accepted. -/
theorem c10_witness :
    update_task_status c10Store "t1" "pending" none 6 =
      .ok (update_apply c10Store "t1" "pending" none 6) ∧
    statusOf (update_apply c10Store "t1" "pending" none 6) "t1" = some "pending" :=
  c10_update_status_unchecked c10Store "t1" "pending" none 6 (by rfl)

/-! Claim C1: whether get_task_status returns the stored result for every
terminal status. The code attaches the result only for status "completed":
a failed task's stored error payload is never present in the record
returned by get_task_status. -/

def c1Payload : ResultVal := .payload [("error", "boom")]

def c1Base : Store := create_task emptyStore "t1" "chat_completion" 0 0

def c1Rec : TaskRecord :=
  { id := "t1", type := "chat_completion", paramsRef := 0, status := "pending",
    created_at := 0, completed_at := none }

def c1Store : Store := update_apply c1Base "t1" "failed" (some c1Payload) 5

/-- C1 counterexample: a task whose failure payload was stored via
update_task_status: the payload is in the results map, yet get_task_status
returns the record with status "failed" and result absent — not the same
shape as a completed record. -/
theorem c1_counterexample :
    lookupResult c1Store "t1" = some c1Payload ∧
    get_task_status c1Store "t1" =
      .ok { task := { id := "t1", type := "chat_completion", paramsRef := 0,
                      status := "failed", created_at := 0, completed_at := some 5 },
            result := none } := by
  constructor <;> rfl

/-- C1 amended: get_task_status attaches the stored result only when the
record's status is "completed". After a failure payload is recorded via
update_task_status, get succeeds and returns status "failed" with the
result field absent (even though the payload is stored); after a completion
result is recorded the same way, the result is present. -/
theorem c1_get_result_only_for_completed (s : Store) (i : String)
    (rec : TaskRecord) (p : ResultVal) (now : Int)
    (h : lookupTask s i = some rec) :
    get_task_status (update_apply s i "failed" (some p) now) i =
      .ok { task := applyStatus "failed" (some p) now rec, result := none } ∧
    lookupResult (update_apply s i "failed" (some p) now) i = some p ∧
    get_task_status (update_apply s i "completed" (some p) now) i =
      .ok { task := applyStatus "completed" (some p) now rec,
            result := some p } := by
  refine ⟨?_, ?_, ?_⟩
  · unfold get_task_status
    rw [lookupTask_update_apply_self s i "failed" (some p) now rec h]
    rfl
  · exact lookupResult_update_apply_some s i "failed" p now
  · unfold get_task_status
    rw [lookupTask_update_apply_self s i "completed" (some p) now rec h]
    rw [show lookupResult (update_apply s i "completed" (some p) now) i = some p
          from lookupResult_update_apply_some s i "completed" p now]
    rfl

/-- Witness for the amended C1 at a concrete input. -/
theorem c1_witness :
    get_task_status (update_apply c1Base "t1" "failed" (some c1Payload) 5) "t1" =
      .ok { task := applyStatus "failed" (some c1Payload) 5 c1Rec, result := none } ∧
    lookupResult (update_apply c1Base "t1" "failed" (some c1Payload) 5) "t1" =
      some c1Payload ∧
    get_task_status (update_apply c1Base "t1" "completed" (some c1Payload) 5) "t1" =
      .ok { task := applyStatus "completed" (some c1Payload) 5 c1Rec,
            result := some c1Payload } :=
  c1_get_result_only_for_completed c1Base "t1" c1Rec c1Payload 5 (by rfl)

/-! Claim C6: clean_old_tasks removes exactly the strictly-too-old records.
The code resolves the argument with Python `or`, so max_age_hours = 0 is
treated as unset and replaced by the 48-hour default. -/

def c6Store : Store := create_task emptyStore "t1" "text_generation" 0 0

/-- C6 counterexample: with max_age = 0 hours and now = 7200 s, the record
created at time 0 is strictly older than the supplied max_age
(7200 - 0 > 0), yet clean_old_tasks removes nothing and returns 0, because
Python `or` replaces the falsy 0 with the 48-hour default. -/
theorem c6_counterexample :
    (7200 : Int) - 0 > 0 * 3600 ∧
    (clean_old_tasks c6Store (some 0) 7200).1 = 0 ∧
    (clean_old_tasks c6Store (some 0) 7200).2 = c6Store := by
  refine ⟨by norm_num, rfl, rfl⟩

/-- C6 amended: for every store (with distinct task ids, as Python dict keys
are) and every PROVIDED, NONZERO max_age in hours, clean_old_tasks removes
exactly the records with now - created_at strictly greater than
max_age * 3600 together with their stored results, returns exactly the
number removed, and get on an evicted id afterwards signals not-found.
(max_age = 0 or an omitted max_age instead uses the 48-hour default.) -/
theorem c6_clean_old_tasks_exact (s : Store) (k : Nat) (now : Int)
    (hk : k ≠ 0) (hnd : (s.tasks.map (·.1)).Nodup) :
    (clean_old_tasks s (some k) now).1 =
      (s.tasks.filter
        (fun p => decide (now - p.2.created_at > (k : Int) * 3600))).length ∧
    (clean_old_tasks s (some k) now).2.tasks =
      s.tasks.filter
        (fun p => ! decide (now - p.2.created_at > (k : Int) * 3600)) ∧
    (clean_old_tasks s (some k) now).2.results =
      s.results.filter (fun p =>
        ! ((s.tasks.filter
              (fun p => decide (now - p.2.created_at > (k : Int) * 3600))).map
            (·.1)).contains p.1) ∧
    (∀ i rec, lookupTask s i = some rec →
      now - rec.created_at > (k : Int) * 3600 →
      get_task_status (clean_old_tasks s (some k) now).2 i =
        .error (notFoundMsg i)) := by
  have hbeq : (k == 0) = false := by simpa using hk
  have hres : resolveMaxAge (some k) = k := by
    simp [resolveMaxAge, hbeq]
  refine ⟨?_, ?_, ?_, ?_⟩
  · simp [clean_old_tasks, hres]
  · simp [clean_old_tasks, hres]
  · simp [clean_old_tasks, hres]
  · intro i rec hlook hold
    have htasks : (clean_old_tasks s (some k) now).2.tasks =
        s.tasks.filter
          (fun p => ! decide (now - p.2.created_at > (k : Int) * 3600)) := by
      simp [clean_old_tasks, hres]
    obtain ⟨y, hy, hy2⟩ : ∃ y, s.tasks.find? (fun p => p.1 == i) = some y ∧
        y.2 = rec := by
      unfold lookupTask at hlook
      cases hf : s.tasks.find? (fun p => p.1 == i) with
      | none => rw [hf] at hlook; simp at hlook
      | some y =>
        rw [hf] at hlook
        exact ⟨y, rfl, by simpa using hlook⟩
    have hymem : y ∈ s.tasks := List.mem_of_find?_eq_some hy
    have hyi : y.1 = i := by simpa using List.find?_some hy
    have hnone : lookupTask (clean_old_tasks s (some k) now).2 i = none := by
      unfold lookupTask
      rw [htasks]
      rw [List.find?_eq_none.mpr]
      · rfl
      · intro x hx hxq
        have hx2 := List.mem_filter.mp hx
        have hxi : x.1 = i := by simpa using hxq
        have hxy : x = y :=
          List.inj_on_of_nodup_map hnd hx2.1 hymem (hxi.trans hyi.symm)
        have : (! decide (now - x.2.created_at > (k : Int) * 3600)) = true :=
          hx2.2
        rw [hxy, hy2] at this
        simp [hold] at this
    unfold get_task_status
    rw [hnone]

def c6WStore : Store := create_task emptyStore "t1" "text_generation" 0 0

/-- Witness for the amended C6 at a concrete input: one task created at
time 0, max_age 1 hour, now = 7200 s: the task is removed (count 1) and a
subsequent get signals not-found. -/
theorem c6_witness :
    (clean_old_tasks c6WStore (some 1) 7200).1 = 1 ∧
    get_task_status (clean_old_tasks c6WStore (some 1) 7200).2 "t1" =
      .error (notFoundMsg "t1") := by
  have h := c6_clean_old_tasks_exact c6WStore 1 7200 (by decide) (by decide)
  refine ⟨?_, ?_⟩
  · rw [h.1]; rfl
  · exact h.2.2.2 "t1"
      { id := "t1", type := "text_generation", paramsRef := 0,
        status := "pending", created_at := 0, completed_at := none }
      (by rfl) (by decide)

/-! Claim C7: list_tasks = filter, then sort by created_at descending, then
paginate. The code's filter uses Python truthiness, so the empty-string
status filter is silently ignored. -/

/-- Modelled from the spec's words (§4.1 list contract: "returns records
optionally filtered by status, ordered by created_at descending (most
recent first), then sliced by skip/limit. Filtering, ordering, and
pagination apply in that order."), for the case where a status filter is
given, to be compared with list_tasks. -/
def listSpecFiltered (s : Store) (st : String) (limit skip : Nat) :
    List TaskRecord :=
  ((((s.tasks.map (·.2)).filter (fun t => t.status == st)).insertionSort
      (fun a b => b.created_at ≤ a.created_at)).drop skip).take limit

def c7Store : Store := create_task emptyStore "t1" "text_generation" 0 0

/-- C7 counterexample: with the status filter "" (a given filter value), the
code skips filtering entirely (Python truthiness at `if status:`): a record
whose status is "pending" — which does not satisfy the filter "" — is
returned. -/
theorem c7_counterexample :
    (list_tasks c7Store (some "") 100 0).map (·.status) = ["pending"] ∧
    ("pending" : String) ≠ "" := by
  exact ⟨rfl, by decide⟩

/-- C7 amended: for every store, NON-EMPTY status filter, limit L and skip
S, list_tasks returns at most L records, every returned record satisfies
the filter, the records are pairwise ordered by created_at descending, and
the result equals the filtered-then-sorted sequence with the first S
elements dropped and the next L taken — filtering, ordering, pagination in
that order. (The empty-string filter is instead ignored entirely.) -/
theorem c7_list_tasks_shape (s : Store) (st : String) (limit skip : Nat)
    (hst : st ≠ "") :
    list_tasks s (some st) limit skip = listSpecFiltered s st limit skip ∧
    (list_tasks s (some st) limit skip).length ≤ limit ∧
    (∀ r ∈ list_tasks s (some st) limit skip, r.status = st) ∧
    (list_tasks s (some st) limit skip).Pairwise
      (fun a b => b.created_at ≤ a.created_at) := by
  have hbeq : (st == "") = false := by simpa using hst
  have heq : list_tasks s (some st) limit skip =
      listSpecFiltered s st limit skip := by
    simp [list_tasks, listSpecFiltered, hbeq]
  have hsub : (listSpecFiltered s st limit skip).Sublist
      (((s.tasks.map (·.2)).filter (fun t => t.status == st)).insertionSort
        (fun a b => b.created_at ≤ a.created_at)) := by
    unfold listSpecFiltered
    exact (List.take_sublist _ _).trans (List.drop_sublist _ _)
  refine ⟨heq, ?_, ?_, ?_⟩
  · rw [heq]
    unfold listSpecFiltered
    exact List.length_take_le _ _
  · intro r hr
    rw [heq] at hr
    have hr2 := hsub.subset hr
    have hr3 := (List.mem_insertionSort _).mp hr2
    have hr4 := (List.mem_filter.mp hr3).2
    simpa using hr4
  · rw [heq]
    haveI htot : IsTotal TaskRecord (fun a b => b.created_at ≤ a.created_at) :=
      ⟨fun a b => Int.le_total b.created_at a.created_at⟩
    haveI htr : IsTrans TaskRecord (fun a b => b.created_at ≤ a.created_at) :=
      ⟨fun _ _ _ hab hbc => le_trans hbc hab⟩
    have hs := List.sorted_insertionSort
      (fun a b : TaskRecord => b.created_at ≤ a.created_at)
      ((s.tasks.map (·.2)).filter (fun t => t.status == st))
    exact List.Pairwise.sublist hsub hs

def c7WStore : Store :=
  create_task (create_task (create_task emptyStore "t1" "text_generation" 0 10)
    "t2" "text_generation" 0 30) "t3" "chat_completion" 0 20

/-- Witness for the amended C7 at a concrete input: three pending tasks with
distinct creation times, status filter "pending", limit 2, skip 1. -/
theorem c7_witness :
    list_tasks c7WStore (some "pending") 2 1 =
      listSpecFiltered c7WStore "pending" 2 1 ∧
    (list_tasks c7WStore (some "pending") 2 1).length ≤ 2 ∧
    (∀ r ∈ list_tasks c7WStore (some "pending") 2 1, r.status = "pending") ∧
    (list_tasks c7WStore (some "pending") 2 1).Pairwise
      (fun a b => b.created_at ≤ a.created_at) :=
  c7_list_tasks_shape c7WStore "pending" 2 1 (by decide)

/-! Claim C9: whether the params mapping is copied at creation. The code
stores the caller's dict object itself (task_manager.py line 38), so later
caller mutations are visible through the stored record. -/

def c9Heap : Heap := fun _ => [("prompt", "hello")]

def c9Store : Store := create_task emptyStore "t1" "text_generation" 0 0

def c9Rec : TaskRecord :=
  { id := "t1", type := "text_generation", paramsRef := 0,
    status := "pending", created_at := 0, completed_at := none }

/-- C9 counterexample: a task is created with the params dict at address 0
holding prompt = hello; the caller then mutates that same dict to
prompt = bye; reading the record's params now yields the mutated value —
the record was NOT given a copy made at creation time. -/
theorem c9_counterexample :
    lookupTask c9Store "t1" = some c9Rec ∧
    derefParams c9Heap c9Rec = [("prompt", "hello")] ∧
    derefParams (heapWrite c9Heap 0 [("prompt", "bye")]) c9Rec =
      [("prompt", "bye")] ∧
    ([("prompt", "bye")] : Params) ≠ [("prompt", "hello")] := by
  refine ⟨rfl, rfl, rfl, by decide⟩

/-- C9 amended: the params mapping is stored by reference, not copied:
create_task records the caller's address unchanged, so a caller mutation of
that mapping after create is visible through the record's params; the
store's own operations do not touch the mapping and update_task_status
preserves the stored reference. -/
theorem c9_params_by_reference (s : Store) (i ty : String) (a : Addr)
    (now : Int) (h0 : Heap) (v : Params)
    (hfresh : lookupTask s i = none) :
    (lookupTask (create_task s i ty a now) i).map (·.paramsRef) = some a ∧
    (∀ rec, lookupTask (create_task s i ty a now) i = some rec →
       derefParams (heapWrite h0 a v) rec = v) ∧
    (∀ st res now2,
       (lookupTask (update_apply (create_task s i ty a now) i st res now2)
           i).map (·.paramsRef) = some a) := by
  have hc := lookupTask_create_self s i ty a now hfresh
  refine ⟨by rw [hc]; rfl, ?_, ?_⟩
  · intro rec hrec
    rw [hc] at hrec
    have hrec2 := Option.some.inj hrec
    unfold derefParams heapWrite
    rw [← hrec2]
    simp
  · intro st res now2
    rw [lookupTask_update_apply_self _ i st res now2 _ hc]
    rfl

/-- Witness for the amended C9 at a concrete input. -/
theorem c9_witness :
    (lookupTask (create_task emptyStore "t1" "text_generation" 0 0) "t1").map
      (·.paramsRef) = some 0 ∧
    derefParams (heapWrite c9Heap 0 [("prompt", "bye")]) c9Rec =
      [("prompt", "bye")] := by
  have h := c9_params_by_reference emptyStore "t1" "text_generation" 0 0 c9Heap
    [("prompt", "bye")] (by rfl)
  exact ⟨h.1, h.2.1 c9Rec (by rfl)⟩

/-! Claim C2: dispatching a pending task of an unregistered type. The code
(task_scheduler.py lines 182-193) marks it processing, starts no execution
routine, and fails it — but the stored payload is only
error = "Unknown task type: <type>"; it has no kind field at all. -/

/-- The execution routine kinds the dispatch loop can start
(task_scheduler.py lines 186-189). -/
inductive UnitKind
  | textGeneration
  | chatCompletion
deriving DecidableEq

/-- Per-task body of `TaskScheduler._task_worker` (task_scheduler.py lines
182-193): mark the task processing, then start the execution routine
matching its type without awaiting it (returned as `some kind`), or — for a
type that is neither text_generation nor chat_completion — immediately fail
the task with the payload built at line 192 and start nothing (`none`).
KeyError from the store updates propagates to the worker loop's catch-all. -/
def dispatch_task (s : Store) (rec : TaskRecord) (now : Int) :
    Except String (Store × Option UnitKind) :=
  match update_task_status s rec.id "processing" none now with
  | .error e => .error e
  | .ok s1 =>
    if rec.type == "text_generation" then .ok (s1, some .textGeneration)
    else if rec.type == "chat_completion" then .ok (s1, some .chatCompletion)
    else
      match update_task_status s1 rec.id "failed"
          (some (.payload [("error", "Unknown task type: " ++ rec.type)])) now with
      | .error e => .error e
      | .ok s2 => .ok (s2, none)

def c2Store : Store := create_task emptyStore "t1" "image_generation" 0 0

def c2Rec : TaskRecord :=
  { id := "t1", type := "image_generation", paramsRef := 0,
    status := "pending", created_at := 0, completed_at := none }

def c2After : Store :=
  update_apply (update_apply c2Store "t1" "processing" none 1) "t1" "failed"
    (some (.payload [("error", "Unknown task type: image_generation")])) 1

/-- C2 counterexample: dispatching a pending task of the unregistered type
image_generation starts no execution routine and fails the task, but the
stored error payload has NO "kind" field — in particular no field equal to
"unsupported_type"; its only field is the error message. -/
theorem c2_counterexample :
    dispatch_task c2Store c2Rec 1 = .ok (c2After, none) ∧
    lookupResult c2After "t1" =
      some (.payload [("error", "Unknown task type: image_generation")]) ∧
    List.find? (fun p => p.1 == "kind")
      [("error", "Unknown task type: image_generation")] = none := by
  refine ⟨rfl, rfl, rfl⟩

/-- C2 amended: one dispatch step on a task whose type is neither
text_generation nor chat_completion starts no execution routine and leaves
the task failed (after passing through processing), with the stored error
payload the single-field dict error = "Unknown task type: <type>" — there
is no kind field. -/
theorem c2_unknown_type_failed (s : Store) (rec : TaskRecord) (now : Int)
    (h : lookupTask s rec.id = some rec)
    (h1 : rec.type ≠ "text_generation") (h2 : rec.type ≠ "chat_completion") :
    dispatch_task s rec now =
      .ok (update_apply (update_apply s rec.id "processing" none now) rec.id
             "failed"
             (some (.payload [("error", "Unknown task type: " ++ rec.type)]))
             now,
           none) ∧
    statusOf (update_apply (update_apply s rec.id "processing" none now) rec.id
        "failed" (some (.payload [("error", "Unknown task type: " ++ rec.type)]))
        now) rec.id = some "failed" ∧
    lookupResult (update_apply (update_apply s rec.id "processing" none now)
        rec.id "failed"
        (some (.payload [("error", "Unknown task type: " ++ rec.type)])) now)
      rec.id =
      some (.payload [("error", "Unknown task type: " ++ rec.type)]) := by
  have hsome : (lookupTask s rec.id).isSome := by rw [h]; rfl
  have hb1 : (rec.type == "text_generation") = false := by simpa using h1
  have hb2 : (rec.type == "chat_completion") = false := by simpa using h2
  have hs1 : lookupTask (update_apply s rec.id "processing" none now) rec.id =
      some (applyStatus "processing" none now rec) :=
    lookupTask_update_apply_self s rec.id "processing" none now rec h
  have hsome1 :
      (lookupTask (update_apply s rec.id "processing" none now) rec.id).isSome := by
    rw [hs1]; rfl
  have e1 : update_task_status s rec.id "processing" none now =
      .ok (update_apply s rec.id "processing" none now) := by
    unfold update_task_status
    rw [if_pos hsome]
  have e2 : update_task_status (update_apply s rec.id "processing" none now)
      rec.id "failed"
      (some (.payload [("error", "Unknown task type: " ++ rec.type)])) now =
      .ok (update_apply (update_apply s rec.id "processing" none now) rec.id
        "failed" (some (.payload [("error", "Unknown task type: " ++ rec.type)]))
        now) := by
    unfold update_task_status
    rw [if_pos hsome1]
  refine ⟨?_, statusOf_update_apply_self _ rec.id _ _ now hsome1,
    lookupResult_update_apply_some _ rec.id _ _ now⟩
  unfold dispatch_task
  rw [e1]
  simp [hb1, hb2, e2]

/-- Witness for the amended C2 at a concrete input. -/
theorem c2_witness :
    dispatch_task c2Store c2Rec 1 = .ok (c2After, none) ∧
    statusOf c2After "t1" = some "failed" ∧
    lookupResult c2After "t1" =
      some (.payload [("error", "Unknown task type: image_generation")]) :=
  c2_unknown_type_failed c2Store c2Rec 1 (by rfl) (by decide) (by decide)

/-! Claim C8: the Execution Units catch backend exceptions and record them,
and whether anything can propagate out of a unit. In the code the recording
update itself can raise KeyError (task evicted mid-execution), and in the
except branch that KeyError propagates out of the unit. -/

/-- `TaskScheduler._process_text_generation` (task_scheduler.py lines
148-159): await the backend (modelled by its outcome `.ok result` /
`.error message`), record completed on success, and on ANY exception —
including the KeyError raised by the success-path update when the task no
longer exists — record failed with the exception message; a KeyError raised
by that failure-path update itself propagates out of the unit. (The quoting
Python's str applies to a KeyError argument is not modelled: the message is
used verbatim.) -/
def process_text_generation (s : Store) (task_id : String)
    (backend : Except String ResultVal) (now : Int) : Except String Store :=
  match backend with
  | .ok result =>
    match update_task_status s task_id "completed" (some result) now with
    | .ok s2 => .ok s2
    | .error e =>
      update_task_status s task_id "failed" (some (.payload [("error", e)])) now
  | .error msg =>
    update_task_status s task_id "failed" (some (.payload [("error", msg)])) now

/-- `TaskScheduler._process_chat_completion` (task_scheduler.py lines
161-172): identical structure to _process_text_generation. -/
def process_chat_completion (s : Store) (task_id : String)
    (backend : Except String ResultVal) (now : Int) : Except String Store :=
  match backend with
  | .ok result =>
    match update_task_status s task_id "completed" (some result) now with
    | .ok s2 => .ok s2
    | .error e =>
      update_task_status s task_id "failed" (some (.payload [("error", e)])) now
  | .error msg =>
    update_task_status s task_id "failed" (some (.payload [("error", msg)])) now

/-- C8 counterexample: the task has been evicted (not in the store) when the
backend raises "boom"; the Execution Unit's except block calls
update_status on the missing id and the resulting KeyError propagates out
of the unit — contradicting "no exception ever propagates out of the
Execution Unit ... including when the task has been evicted". -/
theorem c8_counterexample :
    process_text_generation emptyStore "t1" (.error "boom") 0 =
      .error (notFoundMsg "t1") ∧
    process_chat_completion emptyStore "t1" (.error "boom") 0 =
      .error (notFoundMsg "t1") := ⟨rfl, rfl⟩

/-- C8 amended: provided the task is still present in the store at the time
the outcome is recorded, every backend exception is caught by the Execution
Unit (both routines) and recorded as status "failed" with payload
error = message, and the unit returns normally; but when the task has been
evicted mid-execution, the recording update raises KeyError, which
propagates out of the Execution Unit. -/
theorem c8_backend_error_recorded (s : Store) (i msg : String) (now : Int)
    (rec : TaskRecord) (h : lookupTask s i = some rec) :
    process_text_generation s i (.error msg) now =
      .ok (update_apply s i "failed" (some (.payload [("error", msg)])) now) ∧
    process_chat_completion s i (.error msg) now =
      .ok (update_apply s i "failed" (some (.payload [("error", msg)])) now) ∧
    statusOf (update_apply s i "failed" (some (.payload [("error", msg)])) now)
        i = some "failed" ∧
    lookupResult (update_apply s i "failed" (some (.payload [("error", msg)]))
        now) i = some (.payload [("error", msg)]) := by
  have hsome : (lookupTask s i).isSome := by rw [h]; rfl
  refine ⟨?_, ?_, statusOf_update_apply_self s i _ _ now hsome,
    lookupResult_update_apply_some s i _ _ now⟩
  · have hred : process_text_generation s i (.error msg) now =
        update_task_status s i "failed" (some (.payload [("error", msg)])) now :=
      rfl
    rw [hred]
    unfold update_task_status
    rw [if_pos hsome]
  · have hred : process_chat_completion s i (.error msg) now =
        update_task_status s i "failed" (some (.payload [("error", msg)])) now :=
      rfl
    rw [hred]
    unfold update_task_status
    rw [if_pos hsome]

def c8Store : Store := create_task emptyStore "t1" "text_generation" 0 0

/-- Witness for the amended C8 at a concrete input. -/
theorem c8_witness :
    process_text_generation c8Store "t1" (.error "boom") 3 =
      .ok (update_apply c8Store "t1" "failed"
        (some (.payload [("error", "boom")])) 3) ∧
    process_chat_completion c8Store "t1" (.error "boom") 3 =
      .ok (update_apply c8Store "t1" "failed"
        (some (.payload [("error", "boom")])) 3) ∧
    statusOf (update_apply c8Store "t1" "failed"
        (some (.payload [("error", "boom")])) 3) "t1" = some "failed" ∧
    lookupResult (update_apply c8Store "t1" "failed"
        (some (.payload [("error", "boom")])) 3) "t1" =
      some (.payload [("error", "boom")]) :=
  c8_backend_error_recorded c8Store "t1" "boom" 3
    { id := "t1", type := "text_generation", paramsRef := 0,
      status := "pending", created_at := 0, completed_at := none } (by rfl)

/-! Claims C3 and C4: the streaming bridge. A backend stream (the mlx_lm
stream_generate generator consumed at mlx_model.py line 426) is modelled by
the increments it actually yields before it either ends normally or
raises. -/

/-- A backend-produced lazy sequence: the text increments actually yielded,
then either normal exhaustion (`raised = none`) or a raised exception with
its message (`raised = some msg`; this also covers an exception before the
first increment, with `chunks = []`). -/
structure BackendStream where
  chunks : List String
  raised : Option String
deriving DecidableEq

/-- The delta dict of a streamed chunk (mlx_model.py lines 382, 436, 451):
the role announcement, a content increment, or the empty delta of the
final success chunk. -/
inductive Delta
  | roleDelta (role : String)
  | contentDelta (content : String)
  | emptyDelta
deriving DecidableEq

/-- One frame produced by `MLXModel.chat_stream`: a chat.completion.chunk
with a delta and finish_reason, or the error chunk of the except branch
(mlx_model.py lines 459-465) with message and error type. The id, created
and model fields carry wall-clock/config values and are not modelled. -/
inductive Chunk
  | frame (delta : Delta) (finish_reason : Option String)
  | errFrame (message : String) (errType : String)
deriving DecidableEq

/-- `MLXModel.chat_stream` (mlx_model.py lines 354-465): first the role
chunk (line 374, before the try); then, inside the try, one content chunk
per backend increment with non-empty text (`if response.text:`, lines
426-440, Python truthiness modelled as the string being non-empty); on
normal exhaustion one final chunk with empty delta and finish_reason
"stop" (lines 443-455); if the backend raises anywhere in the try, instead
exactly one error chunk with the message and type "server_error" (lines
457-465), and the generator stops. -/
def chat_stream (backend : BackendStream) : List Chunk :=
  Chunk.frame (Delta.roleDelta "assistant") none ::
    ((backend.chunks.filter (fun s => ! (s == ""))).map
        (fun s => Chunk.frame (Delta.contentDelta s) none) ++
      match backend.raised with
      | none => [Chunk.frame Delta.emptyDelta (some "stop")]
      | some msg => [Chunk.errFrame msg "server_error"])

/-- `TaskScheduler.stream_chat_completion` (task_scheduler.py lines
101-145): with the model acquired and supporting streaming it passes the
model's chunks through unchanged; its own except branch (lines 138-145)
fires only for failures of model acquisition/loading or a missing
chat_stream attribute — modelled by the `acquire` outcome — and then yields
a single error chunk. -/
def stream_chat_completion (acquire : Except String Unit)
    (backend : BackendStream) : List Chunk :=
  match acquire with
  | .ok _ => chat_stream backend
  | .error msg => [Chunk.errFrame msg "server_error"]

/-- One SSE line emitted by stream_response: a `data: <json chunk>` line or
the `data: [DONE]` end-of-stream sentinel. -/
inductive SSE
  | data (c : Chunk)
  | done
deriving DecidableEq

/-- `stream_response` (api/endpoints/chat_completion.py lines 31-61):
forward each chunk of the scheduler generator as an SSE data line, then
emit the [DONE] sentinel once. Its own except branch catches only
exceptions raised by the generator; stream_chat_completion catches
everything internally and never raises, so that branch never runs here. -/
def stream_response (acquire : Except String Unit) (backend : BackendStream) :
    List SSE :=
  (stream_chat_completion acquire backend).map SSE.data ++ [SSE.done]

/-- C3: for every backend stream that yields two non-empty content
increments and then raises, the bridge emits exactly: one role frame, the
two content frames in order, one terminal error frame carrying the
exception's message, then the end-of-stream sentinel once — and no success
terminal frame (finish_reason "stop") anywhere in the stream. -/
theorem c3_stream_error_framing (a b m : String) (ha : a ≠ "") (hb : b ≠ "") :
    stream_response (.ok ()) ⟨[a, b], some m⟩ =
      [SSE.data (Chunk.frame (Delta.roleDelta "assistant") none),
       SSE.data (Chunk.frame (Delta.contentDelta a) none),
       SSE.data (Chunk.frame (Delta.contentDelta b) none),
       SSE.data (Chunk.errFrame m "server_error"),
       SSE.done] ∧
    SSE.data (Chunk.frame Delta.emptyDelta (some "stop")) ∉
      stream_response (.ok ()) ⟨[a, b], some m⟩ := by
  have hba : (a == "") = false := by simpa using ha
  have hbb : (b == "") = false := by simpa using hb
  have heq : stream_response (.ok ()) ⟨[a, b], some m⟩ =
      [SSE.data (Chunk.frame (Delta.roleDelta "assistant") none),
       SSE.data (Chunk.frame (Delta.contentDelta a) none),
       SSE.data (Chunk.frame (Delta.contentDelta b) none),
       SSE.data (Chunk.errFrame m "server_error"),
       SSE.done] := by
    simp [stream_response, stream_chat_completion, chat_stream,
      List.filter_cons, hba, hbb]
  refine ⟨heq, ?_⟩
  rw [heq]
  intro hmem
  simp at hmem

/-- Witness for C3 at a concrete input. -/
theorem c3_witness :
    stream_response (.ok ()) ⟨["Hello", " world"], some "boom"⟩ =
      [SSE.data (Chunk.frame (Delta.roleDelta "assistant") none),
       SSE.data (Chunk.frame (Delta.contentDelta "Hello") none),
       SSE.data (Chunk.frame (Delta.contentDelta " world") none),
       SSE.data (Chunk.errFrame "boom" "server_error"),
       SSE.done] ∧
    SSE.data (Chunk.frame Delta.emptyDelta (some "stop")) ∉
      stream_response (.ok ()) ⟨["Hello", " world"], some "boom"⟩ :=
  c3_stream_error_framing "Hello" " world" "boom" (by decide) (by decide)

/-- C4: for every backend stream that terminates normally after yielding
three non-empty content increments, the bridge emits exactly: one role
frame, three content frames each carrying only its own increment and in
emission order, one success terminal frame with finish_reason "stop" and
empty delta, then the end-of-stream sentinel exactly once. -/
theorem c4_stream_success_framing (a b c : String)
    (ha : a ≠ "") (hb : b ≠ "") (hc : c ≠ "") :
    stream_response (.ok ()) ⟨[a, b, c], none⟩ =
      [SSE.data (Chunk.frame (Delta.roleDelta "assistant") none),
       SSE.data (Chunk.frame (Delta.contentDelta a) none),
       SSE.data (Chunk.frame (Delta.contentDelta b) none),
       SSE.data (Chunk.frame (Delta.contentDelta c) none),
       SSE.data (Chunk.frame Delta.emptyDelta (some "stop")),
       SSE.done] := by
  have hba : (a == "") = false := by simpa using ha
  have hbb : (b == "") = false := by simpa using hb
  have hbc : (c == "") = false := by simpa using hc
  simp [stream_response, stream_chat_completion, chat_stream,
    List.filter_cons, hba, hbb, hbc]

/-- Witness for C4 at a concrete input. -/
theorem c4_witness :
    stream_response (.ok ()) ⟨["I", " am", " here"], none⟩ =
      [SSE.data (Chunk.frame (Delta.roleDelta "assistant") none),
       SSE.data (Chunk.frame (Delta.contentDelta "I") none),
       SSE.data (Chunk.frame (Delta.contentDelta " am") none),
       SSE.data (Chunk.frame (Delta.contentDelta " here") none),
       SSE.data (Chunk.frame Delta.emptyDelta (some "stop")),
       SSE.done] :=
  c4_stream_success_framing "I" " am" " here" (by decide) (by decide) (by decide)

/-! Claim C5: auxiliary frame lemmas for the scheduling system. -/

theorem statusOf_none_iff (s : Store) (i : String) :
    statusOf s i = none ↔ lookupTask s i = none := by
  unfold statusOf
  cases lookupTask s i <;> simp

theorem statusOf_create_self (s : Store) (i ty : String) (a : Addr) (now : Int)
    (h : lookupTask s i = none) :
    statusOf (create_task s i ty a now) i = some "pending" := by
  unfold statusOf
  rw [lookupTask_create_self s i ty a now h]
  rfl

theorem statusOf_create_ne (s : Store) (i j ty : String) (a : Addr) (now : Int)
    (hne : j ≠ i) :
    statusOf (create_task s i ty a now) j = statusOf s j := by
  unfold statusOf
  rw [lookupTask_create_ne s i j ty a now hne]

theorem statusOf_update_apply_ne (s : Store) (i j st : String)
    (res : Option ResultVal) (now : Int) (hne : j ≠ i) :
    statusOf (update_apply s i st res now) j = statusOf s j := by
  unfold statusOf
  rw [lookupTask_update_apply_ne s i j st res now hne]

theorem key_not_mem_of_find?_none {β : Type} (l : List (String × β)) (i : String)
    (h : l.find? (fun p => p.1 == i) = none) : i ∉ l.map (·.1) := by
  intro hmem
  obtain ⟨p, hp, hpi⟩ := List.mem_map.mp hmem
  exact (List.find?_eq_none.mp h p hp) (by simp [hpi])

theorem tasks_keys_create (s : Store) (i ty : String) (a : Addr) (now : Int) :
    (create_task s i ty a now).tasks.map (·.1) = s.tasks.map (·.1) ++ [i] := by
  unfold create_task
  simp

theorem tasks_keys_update_apply (s : Store) (i st : String)
    (res : Option ResultVal) (now : Int) :
    (update_apply s i st res now).tasks.map (·.1) = s.tasks.map (·.1) := by
  unfold update_apply
  rw [List.map_map]
  exact List.map_congr_left (fun p _ =>
    keyfix_if i (fun p => applyStatus st res now p.2) p)

theorem clean_tasks_eq (s : Store) (m : Option Nat) (now : Int) :
    (clean_old_tasks s m now).2.tasks =
      s.tasks.filter (fun p =>
        ! decide (now - p.2.created_at > (resolveMaxAge m : Int) * 3600)) := rfl

theorem assoc_find?_filter {β : Type} (l : List (String × β))
    (q : String × β → Bool) (i : String) (hnd : (l.map (·.1)).Nodup) :
    (l.filter q).find? (fun p => p.1 == i) = l.find? (fun p => p.1 == i) ∨
    (l.filter q).find? (fun p => p.1 == i) = none := by
  induction l with
  | nil => left; rfl
  | cons hd tl ih =>
    rw [List.map_cons, List.nodup_cons] at hnd
    obtain ⟨hhd, hnd2⟩ := hnd
    by_cases hq : q hd = true
    · rw [List.filter_cons_of_pos hq]
      by_cases hi : hd.1 = i
      · have h1 : (hd.1 == i) = true := by simp [hi]
        left
        simp only [List.find?_cons, h1]
      · have h1 : (hd.1 == i) = false := by simp [hi]
        simp only [List.find?_cons, h1]
        exact ih hnd2
    · rw [List.filter_cons_of_neg hq]
      by_cases hi : hd.1 = i
      · right
        rw [List.find?_eq_none]
        intro x hx hqx
        have hx1 : x ∈ tl := (List.filter_sublist tl).subset hx
        have hxi : x.1 = i := by simpa using hqx
        exact hhd (List.mem_map.mpr ⟨x, hx1, hxi.trans hi.symm⟩)
      · have h1 : (hd.1 == i) = false := by simp [hi]
        simp only [List.find?_cons, h1]
        exact ih hnd2

theorem lookupTask_clean (s : Store) (m : Option Nat) (now : Int) (i : String)
    (hnd : (s.tasks.map (·.1)).Nodup) :
    lookupTask (clean_old_tasks s m now).2 i = lookupTask s i ∨
    lookupTask (clean_old_tasks s m now).2 i = none := by
  unfold lookupTask
  rw [clean_tasks_eq]
  rcases assoc_find?_filter s.tasks _ i hnd with h | h
  · left; rw [h]
  · right; rw [h]; rfl

theorem statusOf_clean (s : Store) (m : Option Nat) (now : Int) (i : String)
    (hnd : (s.tasks.map (·.1)).Nodup) :
    statusOf (clean_old_tasks s m now).2 i = statusOf s i ∨
    statusOf (clean_old_tasks s m now).2 i = none := by
  unfold statusOf
  rcases lookupTask_clean s m now i hnd with h | h
  · left; rw [h]
  · right; rw [h]; rfl

/-- Status writes logged for one task id: the sequence of status values the
events of a run store for that id, in order. -/
def proj (log : List (String × String)) (i : String) : List String :=
  (log.filter (fun e => e.1 == i)).map (·.2)

theorem proj_append (log w : List (String × String)) (i : String) :
    proj (log ++ w) i = proj log i ++ proj w i := by
  unfold proj
  rw [List.filter_append, List.map_append]

theorem proj_single_self (i st : String) : proj [(i, st)] i = [st] := by
  simp [proj]

theorem proj_single_ne (i j st : String) (h : j ≠ i) : proj [(i, st)] j = [] := by
  have hb : (i == j) = false := beq_eq_false_iff_ne.mpr (fun hh => h hh.symm)
  simp [proj, hb]

theorem proj_pair_self (i st1 st2 : String) :
    proj [(i, st1), (i, st2)] i = [st1, st2] := by
  simp [proj]

theorem proj_pair_ne (i j st1 st2 : String) (h : j ≠ i) :
    proj [(i, st1), (i, st2)] j = [] := by
  have hb : (i == j) = false := beq_eq_false_iff_ne.mpr (fun hh => h hh.symm)
  simp [proj, hb]

/-- Terminal status recorded by an execution unit for a backend outcome
(task_scheduler.py lines 156 / 159 and 169 / 172). -/
def finStatus (outcome : Except String ResultVal) : String :=
  match outcome with
  | .ok _ => "completed"
  | .error _ => "failed"

/-- Result recorded by an execution unit for a backend outcome. -/
def finResult (outcome : Except String ResultVal) : ResultVal :=
  match outcome with
  | .ok r => r
  | .error msg => .payload [("error", msg)]

/-- When the task is still present, an execution unit's store effect is
exactly: record finStatus / finResult of the backend outcome. -/
theorem process_text_generation_present (s : Store) (i : String)
    (outcome : Except String ResultVal) (now : Int)
    (hpres : (lookupTask s i).isSome) :
    process_text_generation s i outcome now =
      .ok (update_apply s i (finStatus outcome) (some (finResult outcome))
        now) := by
  cases outcome <;>
    simp [process_text_generation, update_task_status, hpres, finStatus,
      finResult]

/-- When the task has been evicted, an execution unit leaves the store
unchanged and the KeyError escapes (both backend outcomes). -/
theorem process_text_generation_lost (s : Store) (i : String)
    (outcome : Except String ResultVal) (now : Int)
    (habs : lookupTask s i = none) :
    process_text_generation s i outcome now = .error (notFoundMsg i) := by
  cases outcome <;>
    simp [process_text_generation, update_task_status, habs]

/-! The scheduling system for claim C5. One state holds the store, the ids
with an in-flight execution unit, and the ids ever issued (uuid4 ids are
never reused). Each step is the per-task effect of one system component,
with the list of (task id, status) writes it performs on the store:
- create: TaskManager.create_task on a fresh id;
- dispatchKnown / dispatchUnknown: the per-task body of
  TaskScheduler._task_worker (lines 182-193) on a task listed as pending —
  the single worker claims it (status "processing") and either starts its
  execution unit or, for an unregistered type, immediately fails it;
- finishPresent / finishLost: an in-flight execution unit completes with
  some backend outcome and records it (the store side of
  _process_text_generation / _process_chat_completion: see
  process_text_generation_present / _lost above — when the task was evicted
  mid-flight the KeyError escapes and nothing is written);
- evict: TaskManager.clean_old_tasks from the cleanup worker. -/
structure Sys where
  store : Store
  units : List String
  used : List String

def sysInit : Sys := { store := emptyStore, units := [], used := [] }

inductive SysStep : Sys → Sys → List (String × String) → Prop
  | create (sys : Sys) (i ty : String) (a : Addr) (now : Int)
      (hfresh : i ∉ sys.used) :
      SysStep sys
        { store := create_task sys.store i ty a now,
          units := sys.units, used := i :: sys.used }
        [(i, "pending")]
  | dispatchKnown (sys : Sys) (i : String) (rec : TaskRecord) (now : Int)
      (hlook : lookupTask sys.store i = some rec)
      (hpend : rec.status = "pending")
      (hknown : rec.type = "text_generation" ∨ rec.type = "chat_completion") :
      SysStep sys
        { store := update_apply sys.store i "processing" none now,
          units := i :: sys.units, used := sys.used }
        [(i, "processing")]
  | dispatchUnknown (sys : Sys) (i : String) (rec : TaskRecord) (now : Int)
      (hlook : lookupTask sys.store i = some rec)
      (hpend : rec.status = "pending")
      (h1 : rec.type ≠ "text_generation") (h2 : rec.type ≠ "chat_completion") :
      SysStep sys
        { store := update_apply
            (update_apply sys.store i "processing" none now) i "failed"
            (some (.payload [("error", "Unknown task type: " ++ rec.type)]))
            now,
          units := sys.units, used := sys.used }
        [(i, "processing"), (i, "failed")]
  | finishPresent (sys : Sys) (i : String) (outcome : Except String ResultVal)
      (now : Int) (hunit : i ∈ sys.units)
      (hpres : (lookupTask sys.store i).isSome) :
      SysStep sys
        { store := update_apply sys.store i (finStatus outcome)
            (some (finResult outcome)) now,
          units := sys.units.erase i, used := sys.used }
        [(i, finStatus outcome)]
  | finishLost (sys : Sys) (i : String) (now : Int) (hunit : i ∈ sys.units)
      (habs : lookupTask sys.store i = none) :
      SysStep sys
        { store := sys.store, units := sys.units.erase i, used := sys.used }
        []
  | evict (sys : Sys) (m : Option Nat) (now : Int) :
      SysStep sys
        { store := (clean_old_tasks sys.store m now).2,
          units := sys.units, used := sys.used }
        []

/-- A run of the system from the initial (empty) state, with the
concatenated log of status writes. -/
inductive Run : Sys → List (String × String) → Prop
  | init : Run sysInit []
  | step {sys log sys2 w} : Run sys log → SysStep sys sys2 w →
      Run sys2 (log ++ w)

/-- Per-id invariant: the logged status history determines the phase, and
conversely constrains the store, the unit set, and the used-id set. A
status of `none` in the store covers eviction. -/
def InvAt (sys : Sys) (log : List (String × String)) (i : String) : Prop :=
  (proj log i = [] ∧ i ∉ sys.used ∧ statusOf sys.store i = none ∧
    i ∉ sys.units) ∨
  (proj log i = ["pending"] ∧ i ∈ sys.used ∧ i ∉ sys.units ∧
    (statusOf sys.store i = some "pending" ∨ statusOf sys.store i = none)) ∨
  (proj log i = ["pending", "processing"] ∧ i ∈ sys.used ∧
    ((statusOf sys.store i = some "processing" ∧ sys.units.count i = 1) ∨
      statusOf sys.store i = none)) ∨
  (∃ t, (t = "completed" ∨ t = "failed") ∧
    proj log i = ["pending", "processing", t] ∧ i ∈ sys.used ∧
    i ∉ sys.units ∧
    (statusOf sys.store i = some t ∨ statusOf sys.store i = none))

def Inv (sys : Sys) (log : List (String × String)) : Prop :=
  (sys.store.tasks.map (·.1)).Nodup ∧ ∀ i, InvAt sys log i

/-- Transport of the per-id invariant along a step that neither logs a
write for this id nor disturbs its membership, unit count, or status
(except possibly evicting it). -/
theorem invAt_frame {sys sys2 : Sys} {log w : List (String × String)}
    {j : String}
    (h : InvAt sys log j)
    (hproj : proj w j = [])
    (hused : j ∈ sys.used ↔ j ∈ sys2.used)
    (hunits : j ∈ sys.units ↔ j ∈ sys2.units)
    (hcnt : sys2.units.count j = sys.units.count j)
    (hstat : statusOf sys2.store j = statusOf sys.store j ∨
             statusOf sys2.store j = none) :
    InvAt sys2 (log ++ w) j := by
  unfold InvAt at h ⊢
  rw [proj_append, hproj, List.append_nil]
  rcases h with ⟨h1, h2, h3, h4⟩ | ⟨h1, h2, h3, h4⟩ | ⟨h1, h2, h3⟩ |
    ⟨t, ht, h1, h2, h3, h4⟩
  · left
    refine ⟨h1, fun hc => h2 (hused.mpr hc), ?_,
      fun hc => h4 (hunits.mpr hc)⟩
    rcases hstat with he | he
    · exact he.trans h3
    · exact he
  · right; left
    refine ⟨h1, hused.mp h2, fun hc => h3 (hunits.mpr hc), ?_⟩
    rcases hstat with he | he
    · rcases h4 with hp | hn
      · left; exact he.trans hp
      · right; exact he.trans hn
    · right; exact he
  · right; right; left
    refine ⟨h1, hused.mp h2, ?_⟩
    rcases hstat with he | he
    · rcases h3 with ⟨hp, hc1⟩ | hn
      · left; exact ⟨he.trans hp, hcnt.trans hc1⟩
      · right; exact he.trans hn
    · right; exact he
  · right; right; right
    refine ⟨t, ht, h1, hused.mp h2, fun hc => h3 (hunits.mpr hc), ?_⟩
    rcases hstat with he | he
    · rcases h4 with hp | hn
      · left; exact he.trans hp
      · right; exact he.trans hn
    · right; exact he

theorem find?_none_of_lookup_none (s : Store) (i : String)
    (h : lookupTask s i = none) :
    s.tasks.find? (fun p => p.1 == i) = none := by
  unfold lookupTask at h
  cases hf : s.tasks.find? (fun p => p.1 == i) with
  | none => rfl
  | some y => rw [hf] at h; simp at h

theorem inv_step {sys sys2 : Sys} {w : List (String × String)}
    (hstep : SysStep sys sys2 w) (log : List (String × String))
    (hinv : Inv sys log) : Inv sys2 (log ++ w) := by
  obtain ⟨hnd, hat⟩ := hinv
  cases hstep with
  | create i ty a now hfresh =>
    rcases hat i with ⟨hp, hu, hs, hun⟩ | ⟨hp, hu, hx, hy⟩ | ⟨hp, hu, hx⟩ |
      ⟨t, ht, hp, hu, hx, hy⟩
    · have hlooknone : lookupTask sys.store i = none :=
        (statusOf_none_iff _ _).mp hs
      constructor
      · rw [tasks_keys_create, List.nodup_append]
        refine ⟨hnd, List.nodup_singleton i, ?_⟩
        intro x hxmem hx2
        rw [List.mem_singleton] at hx2
        subst hx2
        exact key_not_mem_of_find?_none sys.store.tasks x
          (find?_none_of_lookup_none sys.store x hlooknone) hxmem
      · intro j
        by_cases hji : j = i
        · subst hji
          right; left
          refine ⟨?_, List.mem_cons_self j sys.used, hun, ?_⟩
          · simp [proj_append, hp, proj_single_self]
          · left
            exact statusOf_create_self sys.store j ty a now hlooknone
        · refine invAt_frame (hat j) (proj_single_ne i j "pending" hji)
            ?_ Iff.rfl rfl ?_
          · constructor
            · exact fun hh => List.mem_cons_of_mem i hh
            · intro hh
              rcases List.mem_cons.mp hh with h1 | h1
              · exact absurd h1 hji
              · exact h1
          · left
            exact statusOf_create_ne sys.store i j ty a now hji
    · exact absurd hu hfresh
    · exact absurd hu hfresh
    · exact absurd hu hfresh
  | dispatchKnown i rec now hlook hpend hknown =>
    have hstat0 : statusOf sys.store i = some "pending" := by
      unfold statusOf
      rw [hlook]
      simp [hpend]
    have hpres : (lookupTask sys.store i).isSome := by rw [hlook]; rfl
    rcases hat i with ⟨hp, hu, hs, hun⟩ | ⟨hp, hu, hun, hs4⟩ | ⟨hp, hu, h3⟩ |
      ⟨t, ht, hp, hu, hx, h4⟩
    · rw [hstat0] at hs
      exact Option.noConfusion hs
    · constructor
      · rw [tasks_keys_update_apply]
        exact hnd
      · intro j
        by_cases hji : j = i
        · subst hji
          right; right; left
          refine ⟨?_, hu, ?_⟩
          · simp [proj_append, hp, proj_single_self]
          · left
            refine ⟨statusOf_update_apply_self sys.store j "processing" none now
              hpres, ?_⟩
            rw [List.count_cons_self, List.count_eq_zero.mpr hun]
        · refine invAt_frame (hat j) (proj_single_ne i j "processing" hji)
            Iff.rfl ?_ (List.count_cons_of_ne hji sys.units) ?_
          · constructor
            · exact fun hh => List.mem_cons_of_mem i hh
            · intro hh
              rcases List.mem_cons.mp hh with h1 | h1
              · exact absurd h1 hji
              · exact h1
          · left
            exact statusOf_update_apply_ne sys.store i j "processing" none now hji
    · rcases h3 with ⟨hpz, _⟩ | hpz
      · rw [hstat0] at hpz
        exact absurd (Option.some.inj hpz) (by decide)
      · rw [hstat0] at hpz
        exact Option.noConfusion hpz
    · rcases h4 with hpz | hpz
      · rw [hstat0] at hpz
        have hpt := Option.some.inj hpz
        rcases ht with rfl | rfl
        · exact absurd hpt (by decide)
        · exact absurd hpt (by decide)
      · rw [hstat0] at hpz
        exact Option.noConfusion hpz
  | dispatchUnknown i rec now hlook hpend ht1 ht2 =>
    have hstat0 : statusOf sys.store i = some "pending" := by
      unfold statusOf
      rw [hlook]
      simp [hpend]
    have hpres2 : (lookupTask (update_apply sys.store i "processing" none now)
        i).isSome := by
      rw [lookupTask_update_apply_self sys.store i "processing" none now rec
        hlook]
      rfl
    rcases hat i with ⟨hp, hu, hs, hun⟩ | ⟨hp, hu, hun, hs4⟩ | ⟨hp, hu, h3⟩ |
      ⟨t, ht, hp, hu, hx, h4⟩
    · rw [hstat0] at hs
      exact Option.noConfusion hs
    · constructor
      · rw [tasks_keys_update_apply, tasks_keys_update_apply]
        exact hnd
      · intro j
        by_cases hji : j = i
        · subst hji
          right; right; right
          refine ⟨"failed", Or.inr rfl, ?_, hu, hun, ?_⟩
          · simp [proj_append, hp, proj_pair_self]
          · left
            exact statusOf_update_apply_self _ j "failed" _ now hpres2
        · refine invAt_frame (hat j)
            (proj_pair_ne i j "processing" "failed" hji) Iff.rfl Iff.rfl rfl ?_
          left
          rw [statusOf_update_apply_ne _ i j "failed" _ now hji,
            statusOf_update_apply_ne sys.store i j "processing" none now hji]
    · rcases h3 with ⟨hpz, _⟩ | hpz
      · rw [hstat0] at hpz
        exact absurd (Option.some.inj hpz) (by decide)
      · rw [hstat0] at hpz
        exact Option.noConfusion hpz
    · rcases h4 with hpz | hpz
      · rw [hstat0] at hpz
        have hpt := Option.some.inj hpz
        rcases ht with rfl | rfl
        · exact absurd hpt (by decide)
        · exact absurd hpt (by decide)
      · rw [hstat0] at hpz
        exact Option.noConfusion hpz
  | finishPresent i outcome now hunit hpres =>
    have hterm : finStatus outcome = "completed" ∨ finStatus outcome = "failed" := by
      cases outcome with
      | ok r => exact Or.inl rfl
      | error e => exact Or.inr rfl
    rcases hat i with ⟨hp, hu, hs, hun⟩ | ⟨hp, hu, hun, hs4⟩ | ⟨hp, hu, h3⟩ |
      ⟨t, ht, hp, hu, hx, h4⟩
    · exact absurd hunit hun
    · exact absurd hunit hun
    · rcases h3 with ⟨hproc, hcnt1⟩ | hnone
      · constructor
        · rw [tasks_keys_update_apply]
          exact hnd
        · intro j
          by_cases hji : j = i
          · subst hji
            right; right; right
            refine ⟨finStatus outcome, hterm, ?_, hu, ?_, ?_⟩
            · simp [proj_append, hp, proj_single_self]
            · have hz : (sys.units.erase j).count j = 0 := by
                rw [List.count_erase_self, hcnt1]
              exact List.count_eq_zero.mp hz
            · left
              exact statusOf_update_apply_self sys.store j (finStatus outcome)
                _ now hpres
          · refine invAt_frame (hat j)
              (proj_single_ne i j (finStatus outcome) hji) Iff.rfl
              (List.mem_erase_of_ne hji).symm
              (List.count_erase_of_ne hji sys.units) ?_
            left
            exact statusOf_update_apply_ne sys.store i j (finStatus outcome)
              _ now hji
      · rw [(statusOf_none_iff _ _).mp hnone] at hpres
        simp at hpres
    · exact absurd hunit hx
  | finishLost i now hunit habs =>
    have hsnone : statusOf sys.store i = none := (statusOf_none_iff _ _).mpr habs
    rcases hat i with ⟨hp, hu, hs, hun⟩ | ⟨hp, hu, hun, hs4⟩ | ⟨hp, hu, h3⟩ |
      ⟨t, ht, hp, hu, hx, h4⟩
    · exact absurd hunit hun
    · exact absurd hunit hun
    · constructor
      · exact hnd
      · intro j
        by_cases hji : j = i
        · subst hji
          right; right; left
          refine ⟨?_, hu, Or.inr hsnone⟩
          simp [proj_append, hp]
        · exact invAt_frame (hat j) rfl Iff.rfl
            (List.mem_erase_of_ne hji).symm
            (List.count_erase_of_ne hji sys.units) (Or.inl rfl)
    · exact absurd hunit hx
  | evict m now =>
    constructor
    · rw [clean_tasks_eq]
      exact List.Nodup.sublist
        (List.Sublist.map _ (List.filter_sublist sys.store.tasks)) hnd
    · intro j
      exact invAt_frame (hat j) rfl Iff.rfl Iff.rfl rfl
        (statusOf_clean sys.store m now j hnd)

theorem run_inv {sys : Sys} {log : List (String × String)} (h : Run sys log) :
    Inv sys log := by
  induction h with
  | init =>
    constructor
    · exact List.nodup_nil
    · intro i
      left
      exact ⟨rfl, List.not_mem_nil i, rfl, List.not_mem_nil i⟩
  | step hrun hstep ih => exact inv_step hstep _ ih

/-- C5: in every run of the system's own components — the dispatch loop and
the execution units acting through the store, with eviction interleaved —
the sequence of status values any single task takes over time is a prefix
of pending, processing, then exactly one of completed or failed: the
status never moves backward, a dispatched task always passes through
processing, and no task undergoes two terminal transitions. -/
theorem c5_status_lifecycle (sys : Sys) (log : List (String × String))
    (hrun : Run sys log) (i : String) :
    proj log i ∈ ([[], ["pending"], ["pending", "processing"],
      ["pending", "processing", "completed"],
      ["pending", "processing", "failed"]] : List (List String)) := by
  have hinv := run_inv hrun
  rcases hinv.2 i with ⟨hp, _⟩ | ⟨hp, _⟩ | ⟨hp, _⟩ | ⟨t, ht, hp, _⟩
  · simp [hp]
  · simp [hp]
  · simp [hp]
  · rcases ht with rfl | rfl
    · simp [hp]
    · simp [hp]

/-- Witness for C5: a concrete run — create, dispatch, successful finish —
whose logged history for the task is exactly pending, processing,
completed. -/
theorem c5_witness :
    proj [("t1", "pending"), ("t1", "processing"), ("t1", "completed")] "t1" ∈
      ([[], ["pending"], ["pending", "processing"],
        ["pending", "processing", "completed"],
        ["pending", "processing", "failed"]] : List (List String)) := by
  have r1 := Run.step Run.init
    (SysStep.create sysInit "t1" "text_generation" 0 0 (by simp [sysInit]))
  have r2 := Run.step r1
    (SysStep.dispatchKnown _ "t1"
      { id := "t1", type := "text_generation", paramsRef := 0,
        status := "pending", created_at := 0, completed_at := none } 1
      (by rfl) rfl (Or.inl rfl))
  have r3 := Run.step r2
    (SysStep.finishPresent _ "t1" (.ok (.text "hi")) 2 (by simp) (by rfl))
  exact c5_status_lifecycle _ _ r3 "t1"

end CrebAI
